import Mathlib

/-!
# GameOn capture engine — verification of the spec's claims

Shallow embedding of the GameOn recording engine (Python, `src/`):
the SQLite-backed event store (`src/database/db_manager.py`,
`src/database/models.py`), the input recorder
(`src/capture/input_capture.py`), the video pipeline
(`src/capture/video_capture.py`), the audio recorders
(`src/capture/audio_capture.py`) and the session orchestrator
(`src/session/session_manager.py`).

Machine integers of the source are embedded as `Nat`/`Int`; Python floats
(wall-clock times, durations, coordinates) as `ℚ`; fallible operations
return explicit outcome flags.  Stateful classes become explicit state
records with one Lean function per Python method; thread interleavings
become explicit step sequences.  Definitions come first, all theorems
after them.
-/

namespace GameOn

/-- Python `int(x)` applied to a float: truncation toward zero. -/
def pyInt (q : ℚ) : Int := if 0 ≤ q then ⌊q⌋ else ⌈q⌉

/-- The last `n` elements of a list (what a `collections.deque` with
`maxlen = n` retains). -/
def lastN {α : Type} (n : Nat) (l : List α) : List α := l.drop (l.length - n)

/-! ## Event store (`src/database/db_manager.py`)

The `action_codes` table (`models.py`, `CREATE_ACTION_CODES_TABLE`):
columns `id` (INTEGER PRIMARY KEY AUTOINCREMENT), `input_device`,
`raw_input`, `encoded_value`, `description`, `category`, with
UNIQUE(input_device, raw_input).  The `input_events` table (after the
repository's migration adds the `action_code` column used by every
insert in `db_manager.py`): `id`, `session_id`, `timestamp_ms`,
`input_device`, `button_key`, `action`, `value`, `x_position`,
`y_position`, `action_code`. -/

/-- One row of the `action_codes` table. -/
structure ActionCodeRow where
  id : Nat
  input_device : String
  raw_input : String
  encoded_value : Int
  description : Option String
  category : Option String
deriving DecidableEq

/-- One row of the `input_events` table. -/
structure InputEventRow where
  id : Nat
  session_id : Nat
  timestamp_ms : Int
  input_device : String
  button_key : String
  action : String
  value : Option ℚ
  x_position : Option ℚ
  y_position : Option ℚ
  action_code : Nat
deriving DecidableEq

/-- State of a `DatabaseManager`: the two tables relevant to the claims,
their AUTOINCREMENT counters (SQLite row ids start at 1), and the
in-process `_action_code_cache` dict, modelled as an association list
with the most recent insertion first (a key is inserted only when
absent, so this is equivalent to a Python dict). -/
structure DBState where
  actionCodes : List ActionCodeRow
  nextActionCodeId : Nat
  inputEvents : List InputEventRow
  nextInputEventId : Nat
  cache : List (String × Nat)
deriving DecidableEq

/-- A freshly created database: empty tables, empty cache. -/
def initDB : DBState :=
  { actionCodes := [], nextActionCodeId := 1,
    inputEvents := [], nextInputEventId := 1, cache := [] }

/-- The data of one `models.InputEvent` object passed to the insert
methods (all fields except the row id and the resolved action code). -/
structure InputEventData where
  session_id : Nat
  timestamp_ms : Int
  input_device : String
  button_key : String
  action : String
  value : Option ℚ
  x_position : Option ℚ
  y_position : Option ℚ
deriving DecidableEq

namespace DatabaseManager

/-- `cache_key = f"{input_device}:{raw_input}"` (db_manager.py line 273). -/
def cacheKey (input_device raw_input : String) : String :=
  input_device ++ ":" ++ raw_input

/-- Dict lookup in `_action_code_cache`. -/
def cacheFind : List (String × Nat) → String → Option Nat
  | [], _ => none
  | (k, v) :: rest, key => if k = key then some v else cacheFind rest key

/-- `SELECT id FROM action_codes WHERE input_device = ? AND raw_input = ?`. -/
def findActionCode (rows : List ActionCodeRow) (d r : String) :
    Option ActionCodeRow :=
  rows.find? (fun row => row.input_device == d && row.raw_input == r)

/-- SQL `MAX` over a column: `none` on an empty selection. -/
def listMax? (l : List Int) : Option Int :=
  l.foldl (fun acc x =>
    some (match acc with | none => x | some m => max m x)) none

/-- The `encoded_value` column of the rows of one device class, in row
order (`SELECT MAX(encoded_value) … WHERE input_device = ?` ranges over
exactly this list). -/
def encodedList (rows : List ActionCodeRow) (d : String) : List Int :=
  (rows.filter (fun row => row.input_device == d)).map
    ActionCodeRow.encoded_value

/-- Number of `action_codes` rows of one device class. -/
def countForDevice (rows : List ActionCodeRow) (d : String) : Nat :=
  (rows.filter (fun row => row.input_device == d)).length

/-- The row inserted on a miss: `encoded_value` is
`max(existing for this device) + 1`, or `0` when the device class has no
rows yet; the row id is the table's AUTOINCREMENT value. -/
def newRow (db : DBState) (input_device raw_input : String)
    (description category : Option String) : ActionCodeRow :=
  { id := db.nextActionCodeId, input_device := input_device,
    raw_input := raw_input,
    encoded_value :=
      match listMax? (encodedList db.actionCodes input_device) with
      | some m => m + 1
      | none => 0,
    description := description, category := category }

/-- `DatabaseManager.get_or_create_action_code` (db_manager.py 254-310):
check the cache, then the table; on a miss compute
`encoded_value = max(existing for this device) + 1` (or 0), insert the
row, cache the returned row id (`cursor.lastrowid`). -/
def get_or_create_action_code (db : DBState) (input_device raw_input : String)
    (description : Option String := none) (category : Option String := none) :
    Nat × DBState :=
  let key := cacheKey input_device raw_input
  match cacheFind db.cache key with
  | some v => (v, db)
  | none =>
    match findActionCode db.actionCodes input_device raw_input with
    | some row => (row.id, { db with cache := (key, row.id) :: db.cache })
    | none =>
      let newId := db.nextActionCodeId
      (newId,
        { db with
          actionCodes := db.actionCodes ++
            [newRow db input_device raw_input description category],
          nextActionCodeId := newId + 1,
          cache := (key, newId) :: db.cache })

/-- A sequence of `get_or_create_action_code` calls (as issued by the
event-insertion paths, which pass no description or category). -/
def runCalls (db : DBState) : List (String × String) → DBState
  | [] => db
  | (d, r) :: rest => runCalls (get_or_create_action_code db d r).2 rest

/-- `0, 1, …, n-1` as a list of integers: the contiguous code block with
no gaps and no duplicates. -/
def castRange : Nat → List Int
  | 0 => []
  | n + 1 => castRange n ++ [(n : Int)]

/-- The per-device contiguity invariant: for every device class, the
`encoded_value` column is exactly `0, 1, …, n-1` in row order. -/
def DevInv (db : DBState) : Prop :=
  ∀ d : String,
    encodedList db.actionCodes d = castRange (countForDevice db.actionCodes d)

/-- Every cached id is the id of some `action_codes` row.  The cache only
mirrors the table, so every state the manager actually reaches satisfies
this. -/
def cacheConsistent (db : DBState) : Prop :=
  ∀ key v, cacheFind db.cache key = some v →
    ∃ row ∈ db.actionCodes, row.id = v

/-- The per-event loop of `add_input_events_batch` (db_manager.py
398-416): resolve an action code for each event in order, collecting the
parameter tuples for `executemany`. -/
def resolveEvents (db : DBState) :
    List InputEventData → List (InputEventData × Nat) × DBState
  | [] => ([], db)
  | e :: rest =>
    let r1 := get_or_create_action_code db e.input_device e.button_key
    let r2 := resolveEvents r1.2 rest
    ((e, r1.1) :: r2.1, r2.2)

/-- `cursor.executemany(query, data)`: the collected tuples become rows
with consecutive AUTOINCREMENT ids. -/
def mkEventRows (startId : Nat) :
    List (InputEventData × Nat) → List InputEventRow
  | [] => []
  | (e, c) :: rest =>
    { id := startId, session_id := e.session_id,
      timestamp_ms := e.timestamp_ms, input_device := e.input_device,
      button_key := e.button_key, action := e.action, value := e.value,
      x_position := e.x_position, y_position := e.y_position,
      action_code := c } :: mkEventRows (startId + 1) rest

/-- `DatabaseManager.add_input_events_batch` (db_manager.py 380-419):
resolve an action code per event, then one bulk insert of all rows in a
single transaction. -/
def add_input_events_batch (db : DBState) (events : List InputEventData) :
    DBState :=
  let r := resolveEvents db events
  { r.2 with
    inputEvents := r.2.inputEvents ++ mkEventRows r.2.nextInputEventId r.1,
    nextInputEventId := r.2.nextInputEventId + r.1.length }

end DatabaseManager

/-! ## Sessions (`models.py`, `db_manager.py`, `session_manager.py`) -/

/-- One row of the `sessions` table, as carried by a `models.Session`
object.  Timestamps are rational seconds (Python `datetime`);
`duration_seconds` is the INTEGER column. -/
structure SessionRec where
  id : Nat
  game_name : String
  start_time : ℚ
  end_time : Option ℚ
  duration_seconds : Option Int
  video_path : Option String
  system_audio_path : Option String
  microphone_audio_path : Option String
  input_type : String
  fps : Nat
  latency_offset_ms : Int
  status : String
  monitor_index : Nat
  notes : Option String
deriving DecidableEq

namespace DatabaseManager

/-- `DatabaseManager.mark_session_failed` (db_manager.py 222-235):
`UPDATE sessions SET status = 'failed', notes = ? WHERE id = ?` — the SQL
touches no other column. -/
def mark_session_failed (s : SessionRec) (error : String) : SessionRec :=
  { s with status := "failed", notes := some error }

end DatabaseManager

namespace SessionManager

/-- The `Session` object built by `SessionManager.start_recording`
(session_manager.py 126-137): status `recording`, no end time, no
duration. -/
def newSession (game : String) (start : ℚ) (input_type : String) (fps : Nat)
    (latency : Int) (monitor : Nat)
    (video_path system_audio_path microphone_audio_path : Option String) :
    SessionRec :=
  { id := 0, game_name := game, start_time := start, end_time := none,
    duration_seconds := none, video_path := video_path,
    system_audio_path := system_audio_path,
    microphone_audio_path := microphone_audio_path, input_type := input_type,
    fps := fps, latency_offset_ms := latency, status := "recording",
    monitor_index := monitor, notes := none }

/-- The session update performed by `SessionManager.stop_recording`
(session_manager.py 243-249): `end_time = datetime.now()`,
`duration_seconds = int((end_time - start_time).total_seconds())`,
`status = 'completed'`. -/
def stopUpdateSession (s : SessionRec) (now : ℚ) : SessionRec :=
  { s with end_time := some now,
           duration_seconds := some (pyInt (now - s.start_time)),
           status := "completed" }

end SessionManager

/-- The spec's Session invariant (spec §3): `end_time` and
`duration_seconds` are null exactly while the status is `recording`. -/
def sessionInvariant (s : SessionRec) : Prop :=
  (s.status = "recording" → s.end_time = none ∧ s.duration_seconds = none) ∧
  ((s.status = "completed" ∨ s.status = "failed") →
    s.end_time ≠ none ∧ s.duration_seconds ≠ none)

/-- A concrete freshly created session (start time 1000 s) used by the
session counterexamples and witnesses. -/
def sessionCX : SessionRec :=
  SessionManager.newSession "TestGame" 1000 "keyboard" 60 0 0
    (some "video.avi") none none

/-! ## Session orchestrator start-up (`session_manager.py` 95-191, 264-271)

`start_recording` creates the session row, instantiates the three capture
modules and starts them in order video → audio → input; video and input
are critical, audio failure is only logged.  The start outcome of each
module is an environment input here.  A module that starts successfully
has live capture threads/listeners/streams; `_cleanup` (264-271) merely
sets the module references to `None` — it stops nothing and never
touches the database row. -/

/-- Environment outcomes for the three `*.start_recording()` calls. -/
structure ComponentOutcomes where
  videoOk : Bool
  audioOk : Bool
  inputOk : Bool
deriving DecidableEq

/-- Observable state of a `SessionManager` after `start_recording`:
the persisted session row, whether each module's capture
threads/listeners/streams are live, and whether the manager still holds
a reference to each module. -/
structure ManagerState where
  is_recording : Bool
  sessionRow : Option SessionRec
  videoThreadsRunning : Bool
  audioStreamsRunning : Bool
  inputListenersRunning : Bool
  videoRef : Bool
  audioRef : Bool
  inputRef : Bool
deriving DecidableEq

namespace SessionManager

/-- `SessionManager._cleanup` (session_manager.py 264-271): drop the
module references and session handles.  The modules are not stopped and
the database row is not updated. -/
def cleanup (m : ManagerState) : ManagerState :=
  { m with videoRef := false, audioRef := false, inputRef := false }

/-- `SessionManager.start_recording` (session_manager.py 95-191): insert
the session row with status `recording`, start video (critical), audio
(best-effort) and input (critical).  On critical failure the return is
`False` and `_cleanup` runs. -/
def start_recording (game : String) (input_type : String) (fps : Nat)
    (latency : Int) (monitor : Nat) (captureSystem captureMic : Bool)
    (start : ℚ) (oc : ComponentOutcomes) : Bool × ManagerState :=
  let row := newSession game start input_type fps latency monitor
    (some "video.avi")
    (if captureSystem then some "system_audio.wav" else none)
    (if captureMic then some "microphone_audio.wav" else none)
  let st : ManagerState :=
    { is_recording := false, sessionRow := some row,
      videoThreadsRunning := oc.videoOk,
      audioStreamsRunning := oc.audioOk,
      inputListenersRunning := oc.inputOk,
      videoRef := true, audioRef := true, inputRef := true }
  let success := oc.videoOk && oc.inputOk
  if success then (true, { st with is_recording := true })
  else (false, cleanup st)

end SessionManager

/-- The spec's C2 scenario: the video sink fails to open, audio and
input start fine. -/
def failedStart : Bool × ManagerState :=
  SessionManager.start_recording "TestGame" "keyboard" 60 0 0 true true 1000
    { videoOk := false, audioOk := true, inputOk := true }

/-! ## Audio recorders (`src/capture/audio_capture.py`) -/

/-- Observable state of an `AudioCapture`: the `is_recording` flag, which
sink files are open, which streams were started, and the sample buffers
each callback has written to its sink (abstract buffer ids). -/
structure AudioState where
  is_recording : Bool
  system_file : Bool
  mic_file : Bool
  system_stream : Bool
  mic_stream : Bool
  systemSink : List Nat
  micSink : List Nat
deriving DecidableEq

/-- Environment outcomes for the two stream-open attempts inside
`AudioCapture.start_recording` (each try-block opens a sink file and
starts an input stream; `Ok` means the whole block succeeded). -/
structure AudioOutcomes where
  systemOk : Bool
  micOk : Bool
deriving DecidableEq

namespace AudioCapture

/-- A freshly constructed `AudioCapture`. -/
def initAudio : AudioState :=
  { is_recording := false, system_file := false, mic_file := false,
    system_stream := false, mic_stream := false,
    systemSink := [], micSink := [] }

/-- `AudioCapture.start_recording` (audio_capture.py 128-196):
`success = True`; try to open and start the system stream (failure sets
`success = False`); try to open and start the microphone stream (failure
sets `success = False`); finally `self.is_recording = success` — one
stream's failure therefore clears the flag even when the other stream
started. -/
def start_recording (captureSystem captureMic : Bool) (oc : AudioOutcomes)
    (st : AudioState) : Bool × AudioState :=
  if st.is_recording then (false, st)
  else
    let p1 : Bool × AudioState :=
      if captureSystem then
        if oc.systemOk then
          (true, { st with system_file := true, system_stream := true })
        else (false, st)
      else (true, st)
    let p2 : Bool × AudioState :=
      if captureMic then
        if oc.micOk then
          (p1.1, { p1.2 with mic_file := true, mic_stream := true })
        else (false, p1.2)
      else p1
    (p2.1, { p2.2 with is_recording := p2.1 })

/-- `AudioCapture._system_audio_callback` (audio_capture.py 106-115):
writes the buffer to the sink only when the file is open and
`self.is_recording` holds. -/
def systemCallback (st : AudioState) (buf : Nat) : AudioState :=
  if st.system_file && st.is_recording then
    { st with systemSink := st.systemSink ++ [buf] }
  else st

/-- `AudioCapture._microphone_callback` (audio_capture.py 117-126). -/
def micCallback (st : AudioState) (buf : Nat) : AudioState :=
  if st.mic_file && st.is_recording then
    { st with micSink := st.micSink ++ [buf] }
  else st

/-- The C9 scenario: the system-loopback stream fails to start, the
microphone stream opens and starts fine. -/
def audioOneFailed : Bool × AudioState :=
  start_recording true true { systemOk := false, micOk := true } initAudio

end AudioCapture

/-! ## Video pipeline (`src/capture/video_capture.py`)

The capture thread and writer thread share the bounded
`queue.Queue(maxsize=120)` (line 52).  A run is an arbitrary
interleaving of capture iterations (in which the frame period elapsed
and the grab returned a frame) and writer iterations (in which the
writer dequeued a pair).  Frames carry a fresh id standing for the
freshly grabbed `np.ndarray`; the paired number stands for the capture
timestamp. -/

/-- `queue.Queue(maxsize=120)` — about two seconds of frames at 60 fps. -/
def queueCapacity : Nat := 120

/-- Shared state of the two pipeline threads: the bounded frame queue,
the capture loop's `frame_count` (line 227: incremented only after a
successful `put`), the write loop's `frame_count` (lines 254/261), the
sink contents, and the id supply for fresh frames. -/
structure VideoState where
  queue : List (Nat × Nat)
  capturedCount : Nat
  writtenCount : Nat
  sink : List Nat
  nextFrameId : Nat
deriving DecidableEq

/-- One scheduler step of the pipeline: an iteration of the capture loop
that produced a frame, or an iteration of the write loop. -/
inductive VideoStep where
  | captureTick
  | writeStep
deriving DecidableEq, BEq

namespace VideoCapture

/-- Pipeline state right after `start_recording` spawned both threads. -/
def initVideo : VideoState :=
  { queue := [], capturedCount := 0, writtenCount := 0, sink := [],
    nextFrameId := 0 }

/-- A capture-loop iteration with a grabbed frame (video_capture.py
217-231): `frame_queue.put((frame, current_time), timeout=0.01)`; on
`queue.Full` the frame is dropped with only a log line — no counter
records the drop. -/
def captureStep (st : VideoState) : VideoState :=
  let fid := st.nextFrameId
  if st.queue.length < queueCapacity then
    { st with queue := st.queue ++ [(fid, fid)],
              capturedCount := st.capturedCount + 1,
              nextFrameId := fid + 1 }
  else
    { st with nextFrameId := fid + 1 }

/-- A write-loop iteration (video_capture.py 246-261): dequeue the
oldest `(frame, timestamp)` pair and forward the frame bytes to the
sink. -/
def writeStep (st : VideoState) : VideoState :=
  match st.queue with
  | [] => st
  | (fid, _) :: rest =>
    { st with queue := rest, sink := st.sink ++ [fid],
              writtenCount := st.writtenCount + 1 }

/-- Dispatch one scheduler step. -/
def videoStep (st : VideoState) : VideoStep → VideoState
  | .captureTick => captureStep st
  | .writeStep => writeStep st

/-- Run an interleaving of the two loops. -/
def runVideo (st : VideoState) : List VideoStep → VideoState
  | [] => st
  | s :: rest => runVideo (videoStep st s) rest

/-- Ghost count of the frames that could not be enqueued during a run
(the specification-side quantity "number of frames dropped"). -/
def droppedInRun (st : VideoState) : List VideoStep → Nat
  | [] => 0
  | s :: rest =>
    (match s with
     | .captureTick => if st.queue.length < queueCapacity then 0 else 1
     | .writeStep => 0) + droppedInRun (videoStep st s) rest

/-- Number of capture iterations in a run. -/
def captureTicks : List VideoStep → Nat
  | [] => 0
  | VideoStep.captureTick :: rest => captureTicks rest + 1
  | VideoStep.writeStep :: rest => captureTicks rest

/-- Bookkeeping invariant of the pipeline: no frame id occurs twice
across the sink and the queue, every id in flight is below the supply,
and the writer's counter equals the number of frames in the sink. -/
def videoIdsOk (st : VideoState) : Prop :=
  (st.sink ++ st.queue.map Prod.fst).Nodup ∧
  (∀ i ∈ st.sink ++ st.queue.map Prod.fst, i < st.nextFrameId) ∧
  st.writtenCount = st.sink.length

end VideoCapture

/-! ## Input recorder (`src/capture/input_capture.py`) -/

/-- The event dict built by each input callback (input_capture.py
70-78, 95-103, 115-123, 137-145, 157-165). -/
structure PyEvent where
  timestamp_ms : Int
  input_device : String
  button_key : String
  action : String
  value : Option ℚ
  x_position : Option ℚ
  y_position : Option ℚ
deriving DecidableEq

/-- State of an `InputCapture`: configuration, the recording flag, the
session start time, and the `deque(maxlen=10000)` event buffer (line
48), oldest event first. -/
structure InputCaptureState where
  input_type : String
  capture_mouse : Bool
  latency_offset_ms : Int
  is_recording : Bool
  start_time : Option ℚ
  events : List PyEvent
deriving DecidableEq

/-- `deque(maxlen=10000)` (input_capture.py line 48). -/
def eventBufferMax : Nat := 10000

/-- Appending to a bounded deque: when full, the oldest element is
silently discarded. -/
def dequeAppend (q : List PyEvent) (e : PyEvent) : List PyEvent :=
  if q.length < eventBufferMax then q ++ [e] else q.drop 1 ++ [e]

namespace InputCapture

/-- A freshly constructed `InputCapture` (input_capture.py 18-50).
`start_time` is `None`; `time.time()` is always positive, so the
`if not self.start_time` test is modelled by the `Option`. -/
def init (input_type : String) (capture_mouse : Bool) (latency : Int) :
    InputCaptureState :=
  { input_type := input_type.toLower,
    capture_mouse := capture_mouse && input_type == "keyboard",
    latency_offset_ms := latency, is_recording := false,
    start_time := none, events := [] }

/-- `InputCapture.get_timestamp_ms` (input_capture.py 52-57):
`int((time.time() - self.start_time) * 1000 + self.latency_offset_ms)`,
or `0` before a recording has started. -/
def get_timestamp_ms (st : InputCaptureState) (now : ℚ) : Int :=
  match st.start_time with
  | none => 0
  | some s => pyInt ((now - s) * 1000 + (st.latency_offset_ms : ℚ))

/-- One OS input delivery, tagged with the wall-clock time `now` at which
the hook fires. -/
inductive InputAction where
  | keyPress (now : ℚ) (key : String)
  | keyRelease (now : ℚ) (key : String)
  | mouseClick (now : ℚ) (x y : ℚ) (button : String) (pressed : Bool)
  | mouseMove (now : ℚ) (x y : ℚ)
  | mouseScroll (now : ℚ) (x y dx dy : ℚ)
deriving DecidableEq

/-- Wall-clock time of a delivery. -/
def InputAction.time : InputAction → ℚ
  | keyPress t _ => t
  | keyRelease t _ => t
  | mouseClick t _ _ _ _ => t
  | mouseMove t _ _ => t
  | mouseScroll t _ _ _ _ => t

/-- The event dict each callback builds for a delivery — the fields
written literally in `_on_keyboard_press` / `_on_keyboard_release` /
`_on_mouse_click` / `_on_mouse_move` / `_on_mouse_scroll`.  It depends
on the state only through `get_timestamp_ms`. -/
def mkEvent (st : InputCaptureState) : InputAction → PyEvent
  | .keyPress t key =>
    { timestamp_ms := get_timestamp_ms st t, input_device := "keyboard",
      button_key := key, action := "press", value := some 1,
      x_position := none, y_position := none }
  | .keyRelease t key =>
    { timestamp_ms := get_timestamp_ms st t, input_device := "keyboard",
      button_key := key, action := "release", value := some 0,
      x_position := none, y_position := none }
  | .mouseClick t x y button pressed =>
    { timestamp_ms := get_timestamp_ms st t, input_device := "mouse",
      button_key := button,
      action := if pressed then "press" else "release",
      value := some (if pressed then 1 else 0),
      x_position := some x, y_position := some y }
  | .mouseMove t x y =>
    { timestamp_ms := get_timestamp_ms st t, input_device := "mouse",
      button_key := "move", action := "move", value := none,
      x_position := some x, y_position := some y }
  | .mouseScroll t x y _ dy =>
    { timestamp_ms := get_timestamp_ms st t, input_device := "mouse",
      button_key := "scroll", action := "scroll", value := some dy,
      x_position := some x, y_position := some y }

/-- Which event, if any, a callback appends to `self.events`: every
`_on_*` callback returns immediately when `is_recording` is false, and
`_on_mouse_move` additionally keeps an arrival only when
`len(self.events) % 10 == 0` (input_capture.py line 136) — the test is
on the length of the whole buffer, events of every kind included. -/
def stepEvent (st : InputCaptureState) : InputAction → Option PyEvent
  | .mouseMove t x y =>
    if st.is_recording then
      if st.events.length % 10 = 0 then
        some (mkEvent st (.mouseMove t x y))
      else none
    else none
  | a => if st.is_recording then some (mkEvent st a) else none

/-- Deliver one OS input to the recorder. -/
def inputStep (st : InputCaptureState) (a : InputAction) : InputCaptureState :=
  match stepEvent st a with
  | some e => { st with events := dequeAppend st.events e }
  | none => st

/-- Deliver a whole trace of OS inputs. -/
def runInput (st : InputCaptureState) : List InputAction → InputCaptureState
  | [] => st
  | a :: rest => runInput (inputStep st a) rest

/-- Ghost log: every event the callbacks appended over a trace, oldest
first, with no eviction — the specification-side list of captured
events. -/
def retainedLog (st : InputCaptureState) : List InputAction → List PyEvent
  | [] => []
  | a :: rest =>
    match stepEvent st a with
    | some e => e :: retainedLog (inputStep st a) rest
    | none => retainedLog (inputStep st a) rest

/-- `InputCapture.start_recording` (input_capture.py 223-284) for the
keyboard path: set the flag and start time, clear the buffer, then start
the listeners; when starting them raises, the flag is reset and `False`
returned. -/
def start_recording (st : InputCaptureState) (now : ℚ) (listenersOk : Bool) :
    Bool × InputCaptureState :=
  if st.is_recording then (false, st)
  else
    let st1 := { st with is_recording := true, start_time := some now,
                         events := [] }
    if listenersOk then (true, st1)
    else (false, { st1 with is_recording := false })

/-- `InputCapture.stop_recording` (input_capture.py 286-324): returns
`[]` when not recording; otherwise clears the flag, stops the listeners
and returns `list(self.events)`. -/
def stop_recording (st : InputCaptureState) :
    List PyEvent × InputCaptureState :=
  if st.is_recording then (st.events, { st with is_recording := false })
  else ([], st)

/-- The number of move events in a buffer. -/
def moveCount (l : List PyEvent) : Nat :=
  (l.filter (fun e => e.action == "move")).length

/-- Events other than pointer moves. -/
def nonMove (e : PyEvent) : Bool := e.action != "move"

/-- The recorder state right after a successful keyboard-mode
`start_recording` at time `s` with the given latency offset. -/
def startedState (s : ℚ) (off : Int) : InputCaptureState :=
  (start_recording (init "keyboard" true off) s true).2

end InputCapture

/-- Concrete events for the C8 witness: a key press and release of `w`. -/
def evA : InputEventData :=
  { session_id := 1, timestamp_ms := 100, input_device := "keyboard",
    button_key := "w", action := "press", value := some 1,
    x_position := none, y_position := none }

/-- Second concrete event for the C8 witness. -/
def evB : InputEventData :=
  { session_id := 1, timestamp_ms := 150, input_device := "keyboard",
    button_key := "w", action := "release", value := some 0,
    x_position := none, y_position := none }

/-! # Theorems -/

namespace DatabaseManager

/-! ### Cache lemmas for idempotence (C1) -/

theorem cacheFind_cons (k : String) (v : Nat) (c : List (String × Nat))
    (key : String) :
    cacheFind ((k, v) :: c) key
      = if k = key then some v else cacheFind c key :=
  rfl

/-- A call whose key is cached returns the cached id and leaves the state
unchanged. -/
theorem call_of_cached {db : DBState} {d r : String} {v : Nat}
    (h : cacheFind db.cache (cacheKey d r) = some v) :
    get_or_create_action_code db d r = (v, db) := by
  unfold get_or_create_action_code
  simp [h]

/-- After any call, the call's key is cached and maps to the returned id. -/
theorem cacheFind_after_call (db : DBState) (d r : String) :
    cacheFind (get_or_create_action_code db d r).2.cache (cacheKey d r)
      = some (get_or_create_action_code db d r).1 := by
  unfold get_or_create_action_code
  cases h : cacheFind db.cache (cacheKey d r) with
  | some v => simp [h]
  | none =>
    cases hf : findActionCode db.actionCodes d r with
    | some row => simp [h, hf, cacheFind_cons]
    | none => simp [h, hf, cacheFind_cons]

/-- Cache entries survive any later call: a new `(key, id)` pair is
prepended only when `key` was absent, so an existing binding is never
shadowed. -/
theorem cacheFind_mono {db : DBState} {key : String} {v : Nat}
    (h : cacheFind db.cache key = some v) (d r : String) :
    cacheFind (get_or_create_action_code db d r).2.cache key = some v := by
  unfold get_or_create_action_code
  cases hc : cacheFind db.cache (cacheKey d r) with
  | some w => simpa [hc] using h
  | none =>
    have hne : cacheKey d r ≠ key := by
      intro he; rw [he, h] at hc; exact Option.noConfusion hc
    cases hf : findActionCode db.actionCodes d r with
    | some row => simp [hc, hf, cacheFind_cons, hne, h]
    | none => simp [hc, hf, cacheFind_cons, hne, h]

/-- Cache entries survive any sequence of later calls. -/
theorem cacheFind_runCalls_mono {db : DBState} {key : String} {v : Nat}
    (h : cacheFind db.cache key = some v) (calls : List (String × String)) :
    cacheFind (runCalls db calls).cache key = some v := by
  induction calls generalizing db with
  | nil => exact h
  | cons c rest ih =>
    obtain ⟨d, r⟩ := c
    exact ih (cacheFind_mono h d r)

/-! ### Contiguity of `encoded_value` per device class (C1) -/

theorem listMax?_append_singleton (l : List Int) (x : Int) :
    listMax? (l ++ [x])
      = some (match listMax? l with | none => x | some m => max m x) := by
  unfold listMax?
  rw [List.foldl_append]
  rfl

theorem castRange_succ (n : Nat) :
    castRange (n + 1) = castRange n ++ [(n : Int)] :=
  rfl

theorem listMax?_castRange (n : Nat) :
    listMax? (castRange n)
      = if n = 0 then none else some ((n - 1 : Nat) : Int) := by
  induction n with
  | zero => rfl
  | succ m ih =>
    rw [castRange_succ, listMax?_append_singleton, ih]
    cases m with
    | zero => simp
    | succ k =>
      have hmax : max ((k + 1 - 1 : Nat) : Int) ((k + 1 : Nat) : Int)
          = ((k + 1 : Nat) : Int) := by
        rw [max_eq_right]
        push_cast
        omega
      simp [hmax]

theorem encodedList_append (rows extra : List ActionCodeRow) (d : String) :
    encodedList (rows ++ extra) d
      = encodedList rows d ++ encodedList extra d := by
  unfold encodedList
  rw [List.filter_append, List.map_append]

theorem encodedList_singleton (row : ActionCodeRow) (d : String) :
    encodedList [row] d
      = if row.input_device = d then [row.encoded_value] else [] := by
  unfold encodedList
  by_cases h : row.input_device = d <;> simp [h]

theorem countForDevice_append (rows extra : List ActionCodeRow) (d : String) :
    countForDevice (rows ++ extra) d
      = countForDevice rows d + countForDevice extra d := by
  unfold countForDevice
  rw [List.filter_append, List.length_append]

theorem countForDevice_singleton (row : ActionCodeRow) (d : String) :
    countForDevice [row] d = if row.input_device = d then 1 else 0 := by
  unfold countForDevice
  by_cases h : row.input_device = d <;> simp [h]

theorem newRow_input_device (db : DBState) (d r : String)
    (desc cat : Option String) : (newRow db d r desc cat).input_device = d :=
  rfl

/-- Under the contiguity invariant for device `d`, the freshly computed
`encoded_value` is exactly the next code `n`. -/
theorem newRow_encoded_of_inv {db : DBState} {d : String}
    (h : encodedList db.actionCodes d
      = castRange (countForDevice db.actionCodes d))
    (r : String) (desc cat : Option String) :
    (newRow db d r desc cat).encoded_value
      = ((countForDevice db.actionCodes d : Nat) : Int) := by
  unfold newRow
  simp only [h, listMax?_castRange]
  by_cases hn : countForDevice db.actionCodes d = 0
  · simp [hn]
  · simp only [if_neg hn]
    omega

theorem devInv_init : DevInv initDB := by
  intro d
  rfl

theorem devInv_call {db : DBState} (h : DevInv db) (d r : String) :
    DevInv (get_or_create_action_code db d r).2 := by
  unfold get_or_create_action_code
  cases hc : cacheFind db.cache (cacheKey d r) with
  | some v => simpa [hc] using h
  | none =>
    cases hf : findActionCode db.actionCodes d r with
    | some row => simpa [hc, hf] using h
    | none =>
      simp only [hc, hf]
      intro d'
      rw [encodedList_append, countForDevice_append, encodedList_singleton,
        countForDevice_singleton, newRow_input_device]
      by_cases hd : d = d'
      · subst hd
        rw [if_pos rfl, if_pos rfl,
          newRow_encoded_of_inv (h d) r none none, h d, ← castRange_succ]
      · rw [if_neg hd, if_neg hd]
        simp only [List.append_nil, Nat.add_zero]
        exact h d'

theorem devInv_runCalls {db : DBState} (h : DevInv db)
    (calls : List (String × String)) : DevInv (runCalls db calls) := by
  induction calls generalizing db with
  | nil => exact h
  | cons c rest ih =>
    obtain ⟨d, r⟩ := c
    exact ih (devInv_call h d r)

end DatabaseManager

open DatabaseManager in
/-- C1: `get_or_create_action_code` is idempotent — after a first call for
`(device_class, raw_id)`, every later call for the same pair (with any
other calls interleaved) returns the same code — and for every device
class the `encoded_value` codes assigned in its rows are exactly the
contiguous range `0 … n-1` with no gaps or duplicates, each new code
being `max(existing) + 1` or `0` if none exist (the computation embedded
in `get_or_create_action_code` itself). -/
theorem C1_action_codes_idempotent_and_contiguous :
    (∀ (db : DBState) (d r : String) (later : List (String × String)),
      (get_or_create_action_code
          (runCalls (get_or_create_action_code db d r).2 later) d r).1
        = (get_or_create_action_code db d r).1) ∧
    (∀ (calls : List (String × String)) (d : String),
      encodedList (runCalls initDB calls).actionCodes d
        = castRange (countForDevice (runCalls initDB calls).actionCodes d)) := by
  constructor
  · intro db d r later
    have h1 := cacheFind_after_call db d r
    have h2 := cacheFind_runCalls_mono h1 later
    rw [call_of_cached h2]
  · intro calls d
    exact devInv_runCalls devInv_init calls d

namespace DatabaseManager

/-! ### Batch insertion (C8) -/

theorem call_inputEvents (db : DBState) (d r : String) :
    (get_or_create_action_code db d r).2.inputEvents = db.inputEvents := by
  unfold get_or_create_action_code
  cases hc : cacheFind db.cache (cacheKey d r) with
  | some v => simp [hc]
  | none =>
    cases hf : findActionCode db.actionCodes d r with
    | some row => simp [hc, hf]
    | none => simp [hc, hf]

/-- A call only ever appends `action_codes` rows. -/
theorem call_actionCodes_prefix (db : DBState) (d r : String) :
    ∃ ext, (get_or_create_action_code db d r).2.actionCodes
      = db.actionCodes ++ ext := by
  unfold get_or_create_action_code
  cases hc : cacheFind db.cache (cacheKey d r) with
  | some v => exact ⟨[], by simp [hc]⟩
  | none =>
    cases hf : findActionCode db.actionCodes d r with
    | some row => exact ⟨[], by simp [hc, hf]⟩
    | none => exact ⟨[newRow db d r none none], by simp [hc, hf]⟩

/-- The id returned by a call is the id of a row of the resulting
`action_codes` table, provided every cached id already was one. -/
theorem call_returns_valid {db : DBState} (h : cacheConsistent db)
    (d r : String) :
    ∃ row ∈ (get_or_create_action_code db d r).2.actionCodes,
      row.id = (get_or_create_action_code db d r).1 := by
  cases hc : cacheFind db.cache (cacheKey d r) with
  | some v =>
    rw [call_of_cached hc]
    exact h _ _ hc
  | none =>
    cases hf : findActionCode db.actionCodes d r with
    | some row =>
      unfold get_or_create_action_code
      simp only [hc, hf]
      exact ⟨row, List.mem_of_find?_eq_some hf, rfl⟩
    | none =>
      unfold get_or_create_action_code
      simp only [hc, hf]
      exact ⟨newRow db d r none none,
        List.mem_append_right _ (List.mem_singleton_self _), rfl⟩

/-- Cache consistency is preserved by every call. -/
theorem cacheConsistent_call {db : DBState} (h : cacheConsistent db)
    (d r : String) : cacheConsistent (get_or_create_action_code db d r).2 := by
  cases hc : cacheFind db.cache (cacheKey d r) with
  | some v =>
    rw [call_of_cached hc]
    exact h
  | none =>
    cases hf : findActionCode db.actionCodes d r with
    | some row =>
      intro key v hkv
      unfold get_or_create_action_code at hkv ⊢
      simp only [hc, hf] at hkv ⊢
      rw [cacheFind_cons] at hkv
      by_cases hk : cacheKey d r = key
      · rw [if_pos hk] at hkv
        injection hkv with hv
        exact ⟨row, List.mem_of_find?_eq_some hf, hv⟩
      · rw [if_neg hk] at hkv
        exact h _ _ hkv
    | none =>
      intro key v hkv
      unfold get_or_create_action_code at hkv ⊢
      simp only [hc, hf] at hkv ⊢
      rw [cacheFind_cons] at hkv
      by_cases hk : cacheKey d r = key
      · rw [if_pos hk] at hkv
        injection hkv with hv
        exact ⟨newRow db d r none none,
          List.mem_append_right _ (List.mem_singleton_self _), hv⟩
      · rw [if_neg hk] at hkv
        obtain ⟨row, hm, hid⟩ := h _ _ hkv
        exact ⟨row, List.mem_append_left _ hm, hid⟩

theorem resolveEvents_inputEvents (db : DBState) (evs : List InputEventData) :
    (resolveEvents db evs).2.inputEvents = db.inputEvents := by
  induction evs generalizing db with
  | nil => rfl
  | cons e rest ih =>
    simp only [resolveEvents]
    rw [ih, call_inputEvents]

theorem resolveEvents_length (db : DBState) (evs : List InputEventData) :
    (resolveEvents db evs).1.length = evs.length := by
  induction evs generalizing db with
  | nil => rfl
  | cons e rest ih => simp [resolveEvents, ih]

theorem resolveEvents_actionCodes_prefix (db : DBState)
    (evs : List InputEventData) :
    ∃ ext, (resolveEvents db evs).2.actionCodes = db.actionCodes ++ ext := by
  induction evs generalizing db with
  | nil => exact ⟨[], by simp [resolveEvents]⟩
  | cons e rest ih =>
    obtain ⟨ext1, h1⟩ := call_actionCodes_prefix db e.input_device e.button_key
    obtain ⟨ext2, h2⟩ :=
      ih (get_or_create_action_code db e.input_device e.button_key).2
    refine ⟨ext1 ++ ext2, ?_⟩
    simp only [resolveEvents]
    rw [h2, h1, List.append_assoc]

theorem cacheConsistent_resolveEvents {db : DBState} (h : cacheConsistent db)
    (evs : List InputEventData) : cacheConsistent (resolveEvents db evs).2 := by
  induction evs generalizing db with
  | nil => exact h
  | cons e rest ih =>
    simp only [resolveEvents]
    exact ih (cacheConsistent_call h _ _)

/-- Every code collected by the per-event loop is the id of a row of the
final `action_codes` table. -/
theorem resolveEvents_codes_valid {db : DBState} (h : cacheConsistent db)
    (evs : List InputEventData) :
    ∀ p ∈ (resolveEvents db evs).1,
      ∃ row ∈ (resolveEvents db evs).2.actionCodes, row.id = p.2 := by
  induction evs generalizing db with
  | nil =>
    intro p hp
    simp [resolveEvents] at hp
  | cons e rest ih =>
    intro p hp
    simp only [resolveEvents, List.mem_cons] at hp
    simp only [resolveEvents]
    rcases hp with hp | hp
    · subst hp
      obtain ⟨row, hm, hid⟩ := call_returns_valid h e.input_device e.button_key
      obtain ⟨ext, hext⟩ := resolveEvents_actionCodes_prefix
        (get_or_create_action_code db e.input_device e.button_key).2 rest
      refine ⟨row, ?_, hid⟩
      rw [hext]
      exact List.mem_append_left _ hm
    · exact ih (cacheConsistent_call h _ _) p hp

theorem mkEventRows_length (startId : Nat)
    (data : List (InputEventData × Nat)) :
    (mkEventRows startId data).length = data.length := by
  induction data generalizing startId with
  | nil => rfl
  | cons p rest ih =>
    cases p
    simp [mkEventRows, ih]

theorem mkEventRows_action_code (startId : Nat)
    (data : List (InputEventData × Nat)) :
    ∀ row ∈ mkEventRows startId data, ∃ p ∈ data, row.action_code = p.2 := by
  induction data generalizing startId with
  | nil =>
    intro row h
    simp [mkEventRows] at h
  | cons p rest ih =>
    obtain ⟨e, c⟩ := p
    intro row h
    simp only [mkEventRows, List.mem_cons] at h
    rcases h with h | h
    · subst h
      exact ⟨(e, c), List.mem_cons_self _ _, rfl⟩
    · obtain ⟨q, hq, hqc⟩ := ih (startId + 1) row h
      exact ⟨q, List.mem_cons_of_mem _ hq, hqc⟩

theorem cacheConsistent_initDB : cacheConsistent initDB := by
  intro key v h
  simp [initDB, cacheFind] at h

end DatabaseManager

open DatabaseManager in
/-- C8: `add_input_events_batch` on a list of N events appends exactly N
new rows to `input_events` in one bulk insert (the previous rows are
untouched), and every new row's `action_code` is the id of a row of the
resulting `action_codes` table — looked up, or newly created for that
event's device and control.  The hypothesis, true of every reachable
manager state, is that the in-process cache only holds ids present in
the table. -/
theorem C8_add_input_events_batch_inserts_N_valid_rows
    (db : DBState) (events : List InputEventData)
    (h : cacheConsistent db) :
    ∃ newRows : List InputEventRow,
      (add_input_events_batch db events).inputEvents
        = db.inputEvents ++ newRows ∧
      newRows.length = events.length ∧
      ∀ row ∈ newRows,
        ∃ ac ∈ (add_input_events_batch db events).actionCodes,
          ac.id = row.action_code := by
  refine ⟨mkEventRows (resolveEvents db events).2.nextInputEventId
    (resolveEvents db events).1, ?_, ?_, ?_⟩
  · simp only [add_input_events_batch]
    rw [resolveEvents_inputEvents]
  · rw [mkEventRows_length, resolveEvents_length]
  · intro row hrow
    obtain ⟨p, hp, hpc⟩ := mkEventRows_action_code _ _ row hrow
    obtain ⟨ac, hac, hid⟩ := resolveEvents_codes_valid h events p hp
    refine ⟨ac, ?_, by rw [hpc]; exact hid⟩
    simp only [add_input_events_batch]
    exact hac

open DatabaseManager in
/-- Witness for C8: the theorem applied to a fresh database and two
concrete events, the cache-consistency hypothesis discharged there. -/
theorem C8_add_input_events_batch_witness :
    cacheConsistent initDB ∧
    ∃ newRows : List InputEventRow,
      (add_input_events_batch initDB [evA, evB]).inputEvents
        = initDB.inputEvents ++ newRows ∧
      newRows.length = [evA, evB].length ∧
      ∀ row ∈ newRows,
        ∃ ac ∈ (add_input_events_batch initDB [evA, evB]).actionCodes,
          ac.id = row.action_code :=
  ⟨cacheConsistent_initDB,
    C8_add_input_events_batch_inserts_N_valid_rows initDB [evA, evB]
      cacheConsistent_initDB⟩

/-! ### Session lifecycle (C4, C5) -/

theorem pyInt_of_nonneg {q : ℚ} (h : 0 ≤ q) : pyInt q = ⌊q⌋ :=
  if_pos h

/-- C4 counterexample: applying `mark_session_failed` to a freshly
created recording session (as the orchestrator would on a start
failure) yields status `failed` with `end_time` and `duration_seconds`
still null — the operation changes the status without establishing the
invariant's second half. -/
theorem C4_mark_session_failed_breaks_invariant :
    (DatabaseManager.mark_session_failed sessionCX "video failed").status
      = "failed" ∧
    (DatabaseManager.mark_session_failed sessionCX "video failed").end_time
      = none ∧
    (DatabaseManager.mark_session_failed sessionCX
      "video failed").duration_seconds = none ∧
    ¬ sessionInvariant
      (DatabaseManager.mark_session_failed sessionCX "video failed") := by
  refine ⟨rfl, rfl, rfl, fun h => ?_⟩
  exact (h.2 (Or.inr rfl)).1 rfl

/-- C4 (amended): `end_time` and `duration_seconds` are null on the
session row created by `start_recording` (status `recording`), and the
`stop_recording` update sets status `completed` with both fields
non-null, so the invariant holds along the start→complete path; but
`mark_session_failed` updates only `status` and `notes`, leaving
`end_time` and `duration_seconds` exactly as they were — a session
marked `failed` while recording keeps both fields null. -/
theorem C4_status_lifecycle_amended :
    (∀ (game : String) (start : ℚ) (input_type : String) (fps : Nat)
        (latency : Int) (monitor : Nat) (vp sap mic : Option String),
      (SessionManager.newSession game start input_type fps latency monitor
          vp sap mic).status = "recording" ∧
      sessionInvariant (SessionManager.newSession game start input_type fps
        latency monitor vp sap mic)) ∧
    (∀ (s : SessionRec) (now : ℚ),
      (SessionManager.stopUpdateSession s now).status = "completed" ∧
      (SessionManager.stopUpdateSession s now).end_time = some now ∧
      sessionInvariant (SessionManager.stopUpdateSession s now)) ∧
    (∀ (s : SessionRec) (err : String),
      (DatabaseManager.mark_session_failed s err).status = "failed" ∧
      (DatabaseManager.mark_session_failed s err).end_time = s.end_time ∧
      (DatabaseManager.mark_session_failed s err).duration_seconds
        = s.duration_seconds) := by
  refine ⟨?_, ?_, fun s err => ⟨rfl, rfl, rfl⟩⟩
  · intro game start input_type fps latency monitor vp sap mic
    refine ⟨rfl, fun _ => ⟨rfl, rfl⟩, fun h => ?_⟩
    simp [SessionManager.newSession] at h
  · intro s now
    refine ⟨rfl, rfl, fun h => ?_, fun _ => ⟨?_, ?_⟩⟩
    · simp [SessionManager.stopUpdateSession] at h
    · simp [SessionManager.stopUpdateSession]
    · simp [SessionManager.stopUpdateSession]

/-- C5 counterexample: stopping `sessionCX` 7.9 seconds after its start
stores `duration_seconds = 7` — Python's `int()` truncates — while
`round(end_time - start_time) = 8`. -/
theorem C5_duration_truncates_not_rounds :
    (SessionManager.stopUpdateSession sessionCX
      (1000 + 79/10)).duration_seconds = some 7 ∧
    round ((1000 + 79/10 : ℚ) - sessionCX.start_time) = 8 ∧
    (7 : Int) ≠ 8 := by
  refine ⟨?_, ?_, by decide⟩
  · show some (pyInt ((1000 + 79/10 : ℚ) - 1000)) = some 7
    norm_num [pyInt]
  · show round ((1000 + 79/10 : ℚ) - 1000) = 8
    norm_num [round_eq]

/-- C5 (amended): for a session completed by `stop_recording` at a stop
time not before its start, `end_time ≥ start_time`, and the stored
`duration_seconds` is `⌊end_time - start_time⌋` — the truncation toward
zero of the elapsed seconds, not its rounding — so it undershoots the
elapsed time by less than one second. -/
theorem C5_completed_duration_is_floor (s : SessionRec) (now : ℚ)
    (h : s.start_time ≤ now) :
    (SessionManager.stopUpdateSession s now).status = "completed" ∧
    (SessionManager.stopUpdateSession s now).end_time = some now ∧
    (SessionManager.stopUpdateSession s now).duration_seconds
      = some ⌊now - s.start_time⌋ ∧
    ∀ d : Int,
      (SessionManager.stopUpdateSession s now).duration_seconds = some d →
        (d : ℚ) ≤ now - s.start_time ∧ now - s.start_time < d + 1 := by
  have hq : (0 : ℚ) ≤ now - s.start_time := by linarith
  have hfl : (SessionManager.stopUpdateSession s now).duration_seconds
      = some ⌊now - s.start_time⌋ := by
    show some (pyInt (now - s.start_time)) = some ⌊now - s.start_time⌋
    rw [pyInt_of_nonneg hq]
  refine ⟨rfl, rfl, hfl, fun d hd => ?_⟩
  rw [hfl] at hd
  injection hd with hd
  subst hd
  exact ⟨Int.floor_le _, Int.lt_floor_add_one _⟩

/-- Witness for C5 (amended): the theorem applied to the concrete
session and a stop 7.9 seconds later. -/
theorem C5_completed_duration_is_floor_witness :
    sessionCX.start_time ≤ (1000 + 79/10 : ℚ) ∧
    ((SessionManager.stopUpdateSession sessionCX
        (1000 + 79/10)).status = "completed" ∧
     (SessionManager.stopUpdateSession sessionCX
        (1000 + 79/10)).end_time = some (1000 + 79/10) ∧
     (SessionManager.stopUpdateSession sessionCX
        (1000 + 79/10)).duration_seconds
        = some ⌊(1000 + 79/10 : ℚ) - sessionCX.start_time⌋ ∧
     ∀ d : Int,
       (SessionManager.stopUpdateSession sessionCX
          (1000 + 79/10)).duration_seconds = some d →
         (d : ℚ) ≤ (1000 + 79/10 : ℚ) - sessionCX.start_time ∧
         (1000 + 79/10 : ℚ) - sessionCX.start_time < d + 1) :=
  ⟨by norm_num [sessionCX, SessionManager.newSession],
   C5_completed_duration_is_floor sessionCX (1000 + 79/10)
     (by norm_num [sessionCX, SessionManager.newSession])⟩

/-! ### Orchestrator start failure (C2) -/

/-- C2 (code bug): in the spec's own scenario — video sink fails to
open, audio and input start fine — `start_recording` does return
failure, but `_cleanup` only sets the module references to `None`: the
input listeners and audio streams are still running afterwards, and the
session row still has status `recording` with nothing recorded in
`notes` (`DatabaseManager.mark_session_failed` exists but is called
nowhere in the repository). -/
theorem C2_failed_start_leaves_components_running :
    failedStart.1 = false ∧
    failedStart.2.inputListenersRunning = true ∧
    failedStart.2.audioStreamsRunning = true ∧
    failedStart.2.videoRef = false ∧
    failedStart.2.inputRef = false ∧
    failedStart.2.sessionRow.map SessionRec.status = some "recording" ∧
    failedStart.2.sessionRow.map SessionRec.notes = some none := by
  decide

/-! ### Audio stream independence (C9) -/

/-- C9 (code bug): when the system-loopback stream fails to start but
the microphone stream starts fine, `start_recording` ends with
`self.is_recording = success = False`, so the microphone callback's
`if self.mic_file and self.is_recording` guard discards every buffer:
the stream that started successfully writes nothing to its sink. -/
theorem C9_one_stream_failure_silences_the_other :
    AudioCapture.audioOneFailed.1 = false ∧
    AudioCapture.audioOneFailed.2.mic_stream = true ∧
    AudioCapture.audioOneFailed.2.mic_file = true ∧
    AudioCapture.audioOneFailed.2.is_recording = false ∧
    AudioCapture.micCallback AudioCapture.audioOneFailed.2 0
      = AudioCapture.audioOneFailed.2 := by
  decide

/-! ### Video pipeline (C3) -/

namespace VideoCapture

theorem captureTicks_cons_capture (rest : List VideoStep) :
    captureTicks (VideoStep.captureTick :: rest) = captureTicks rest + 1 :=
  rfl

theorem captureTicks_cons_write (rest : List VideoStep) :
    captureTicks (VideoStep.writeStep :: rest) = captureTicks rest :=
  rfl

theorem captureStep_capturedCount (st : VideoState) :
    (captureStep st).capturedCount
      = if st.queue.length < queueCapacity then st.capturedCount + 1
        else st.capturedCount := by
  unfold captureStep
  by_cases h : st.queue.length < queueCapacity <;> simp [h]

theorem writeStep_capturedCount (st : VideoState) :
    (writeStep st).capturedCount = st.capturedCount := by
  unfold writeStep
  cases st.queue with
  | nil => rfl
  | cons p rest => cases p; rfl

/-- The capture loop's `frame_count` counts exactly the capture
iterations whose frame was enqueued: ticks minus drops. -/
theorem runVideo_capturedCount (run : List VideoStep) : ∀ st : VideoState,
    (runVideo st run).capturedCount + droppedInRun st run
      = st.capturedCount + captureTicks run := by
  induction run with
  | nil =>
    intro st
    simp [runVideo, droppedInRun, captureTicks]
  | cons s rest ih =>
    intro st
    cases s with
    | captureTick =>
      have h1 := ih (captureStep st)
      have h2 := captureStep_capturedCount st
      have h3 : runVideo st (VideoStep.captureTick :: rest)
          = runVideo (captureStep st) rest := rfl
      have h4 : droppedInRun st (VideoStep.captureTick :: rest)
          = (if st.queue.length < queueCapacity then 0 else 1)
            + droppedInRun (captureStep st) rest := rfl
      rw [h3, h4, captureTicks_cons_capture]
      by_cases hq : st.queue.length < queueCapacity
      · rw [if_pos hq] at h2 ⊢
        omega
      · rw [if_neg hq] at h2 ⊢
        omega
    | writeStep =>
      have h1 := ih (writeStep st)
      have h2 := writeStep_capturedCount st
      have h3 : runVideo st (VideoStep.writeStep :: rest)
          = runVideo (writeStep st) rest := rfl
      have h4 : droppedInRun st (VideoStep.writeStep :: rest)
          = 0 + droppedInRun (writeStep st) rest := rfl
      rw [h3, h4, captureTicks_cons_write]
      omega

theorem videoIdsOk_init : videoIdsOk initVideo := by
  refine ⟨List.nodup_nil, ?_, rfl⟩
  intro i hi
  simp [initVideo] at hi

theorem videoIdsOk_captureStep {st : VideoState} (h : videoIdsOk st) :
    videoIdsOk (captureStep st) := by
  obtain ⟨hnd, hlt, hwc⟩ := h
  unfold videoIdsOk captureStep
  by_cases hq : st.queue.length < queueCapacity
  · rw [if_pos hq]
    dsimp only
    have hsh : st.sink ++ List.map Prod.fst
          (st.queue ++ [(st.nextFrameId, st.nextFrameId)])
        = (st.sink ++ List.map Prod.fst st.queue) ++ [st.nextFrameId] := by
      simp
    refine ⟨?_, ?_, hwc⟩
    · rw [hsh, List.nodup_append]
      refine ⟨hnd, List.nodup_singleton _, ?_⟩
      intro a ha hb
      have hb' : a = st.nextFrameId := List.mem_singleton.mp hb
      have := hlt a ha
      omega
    · intro i hi
      rw [hsh] at hi
      rcases List.mem_append.mp hi with hi | hi
      · have := hlt i hi
        omega
      · have : i = st.nextFrameId := List.mem_singleton.mp hi
        omega
  · rw [if_neg hq]
    dsimp only
    refine ⟨hnd, ?_, hwc⟩
    intro i hi
    have := hlt i hi
    omega

theorem videoIdsOk_writeStep {st : VideoState} (h : videoIdsOk st) :
    videoIdsOk (writeStep st) := by
  obtain ⟨hnd, hlt, hwc⟩ := h
  unfold videoIdsOk writeStep
  cases hqe : st.queue with
  | nil =>
    dsimp only
    exact ⟨hnd, hlt, hwc⟩
  | cons p rest =>
    obtain ⟨fid, ts⟩ := p
    dsimp only
    rw [hqe] at hnd hlt
    have hshape : st.sink ++ List.map Prod.fst ((fid, ts) :: rest)
        = (st.sink ++ [fid]) ++ List.map Prod.fst rest := by
      simp
    rw [hshape] at hnd hlt
    refine ⟨hnd, hlt, ?_⟩
    rw [hwc]
    simp

theorem videoIdsOk_run (run : List VideoStep) : ∀ st : VideoState,
    videoIdsOk st → videoIdsOk (runVideo st run) := by
  induction run with
  | nil => exact fun st h => h
  | cons s rest ih =>
    intro st h
    cases s with
    | captureTick => exact ih _ (videoIdsOk_captureStep h)
    | writeStep => exact ih _ (videoIdsOk_writeStep h)

end VideoCapture

open VideoCapture in
set_option maxRecDepth 8000 in
/-- C3 counterexample: drive 121 capture iterations with no writer step
from a fresh pipeline.  Exactly one frame cannot be enqueued, yet the
capture loop's `frame_count` rises by 120 (it counts successful `put`s
only) and the write loop's counter by 0: no counter maintained by the
code increased by the number of dropped frames — the drop produces only
a log line (video_capture.py line 229). -/
theorem C3_no_counter_records_drops :
    droppedInRun initVideo (List.replicate 121 VideoStep.captureTick) = 1 ∧
    (runVideo initVideo
      (List.replicate 121 VideoStep.captureTick)).capturedCount = 120 ∧
    (runVideo initVideo
      (List.replicate 121 VideoStep.captureTick)).writtenCount = 0 ∧
    (120 : Nat) ≠ 1 ∧ (0 : Nat) ≠ 1 := by
  refine ⟨?_, ?_, ?_, by decide, by decide⟩ <;> rfl

open VideoCapture in
/-- C3 (amended): over every interleaving of the two pipeline threads
from a fresh pipeline, a frame that cannot be enqueued is dropped and
merely logged — the capture loop's `frame_count` counts exactly the
enqueued frames (capture iterations minus drops, so no maintained
counter tracks the drops) — while no frame is ever written to the sink
twice, and the writer's `frame_count` equals the number of frames
forwarded to the sink. -/
theorem C3_drops_uncounted_no_double_write (run : List VideoStep) :
    (runVideo initVideo run).capturedCount + droppedInRun initVideo run
      = captureTicks run ∧
    (runVideo initVideo run).sink.Nodup ∧
    (runVideo initVideo run).writtenCount
      = (runVideo initVideo run).sink.length := by
  have h1 := runVideo_capturedCount run initVideo
  have h2 := videoIdsOk_run run initVideo videoIdsOk_init
  refine ⟨by simpa [initVideo] using h1, ?_, h2.2.2⟩
  exact (List.nodup_append.mp h2.1).1

/-! ### Input recorder: buffer, decimation, timestamps (C6, C7, C10) -/

namespace InputCapture

theorem dequeAppend_length_le {q : List PyEvent}
    (h : q.length ≤ eventBufferMax) (e : PyEvent) :
    (dequeAppend q e).length ≤ eventBufferMax := by
  unfold dequeAppend
  by_cases hq : q.length < eventBufferMax
  · rw [if_pos hq]
    rw [List.length_append, List.length_singleton]
    omega
  · rw [if_neg hq]
    rw [List.length_append, List.length_singleton, List.length_drop]
    have hpos : 0 < eventBufferMax := by norm_num [eventBufferMax]
    omega

theorem lastN_of_le {α : Type} {n : Nat} {l : List α} (h : l.length ≤ n) :
    lastN n l = l := by
  unfold lastN
  rw [Nat.sub_eq_zero_of_le h, List.drop_zero]

theorem lastN_length_le {α : Type} (n : Nat) (l : List α) :
    (lastN n l).length ≤ n := by
  unfold lastN
  rw [List.length_drop]
  omega

theorem lastN_drop {α : Type} (n k : Nat) (A : List α)
    (h : n + k ≤ A.length) : lastN n (A.drop k) = lastN n A := by
  unfold lastN
  rw [List.length_drop, List.drop_drop]
  congr 1
  omega

/-- Appending through the bounded deque and then further events reaches
the same final suffix as appending without the bound. -/
theorem lastN_dequeAppend_append (q : List PyEvent) (e : PyEvent)
    (L : List PyEvent) (h : q.length ≤ eventBufferMax) :
    lastN eventBufferMax (dequeAppend q e ++ L)
      = lastN eventBufferMax ((q ++ [e]) ++ L) := by
  unfold dequeAppend
  by_cases hq : q.length < eventBufferMax
  · rw [if_pos hq]
  · rw [if_neg hq]
    have hlen : q.length = eventBufferMax :=
      Nat.le_antisymm h (Nat.le_of_not_lt hq)
    have h1 : (1 : Nat) ≤ q.length := by
      rw [hlen]
      norm_num [eventBufferMax]
    have hd1 : q.drop 1 ++ [e] = (q ++ [e]).drop 1 :=
      (List.drop_append_of_le_length h1).symm
    have h2 : (1 : Nat) ≤ (q ++ [e]).length := by
      rw [List.length_append]
      omega
    rw [hd1, ← List.drop_append_of_le_length h2]
    apply lastN_drop
    rw [List.length_append, List.length_append, List.length_singleton, hlen]
    omega

theorem inputStep_is_recording (st : InputCaptureState) (a : InputAction) :
    (inputStep st a).is_recording = st.is_recording := by
  unfold inputStep
  cases stepEvent st a <;> rfl

theorem inputStep_start_time (st : InputCaptureState) (a : InputAction) :
    (inputStep st a).start_time = st.start_time := by
  unfold inputStep
  cases stepEvent st a <;> rfl

theorem inputStep_latency (st : InputCaptureState) (a : InputAction) :
    (inputStep st a).latency_offset_ms = st.latency_offset_ms := by
  unfold inputStep
  cases stepEvent st a <;> rfl

theorem runInput_is_recording (acts : List InputAction) :
    ∀ st : InputCaptureState,
      (runInput st acts).is_recording = st.is_recording := by
  induction acts with
  | nil => intro st; rfl
  | cons a rest ih =>
    intro st
    rw [show runInput st (a :: rest) = runInput (inputStep st a) rest from rfl,
      ih (inputStep st a), inputStep_is_recording]

/-- The buffer after a trace is the last `eventBufferMax` elements of
the previous buffer followed by everything the callbacks appended. -/
theorem runInput_events (acts : List InputAction) :
    ∀ st : InputCaptureState, st.events.length ≤ eventBufferMax →
      (runInput st acts).events
        = lastN eventBufferMax (st.events ++ retainedLog st acts) := by
  induction acts with
  | nil =>
    intro st h
    rw [show runInput st [] = st from rfl,
      show retainedLog st [] = [] from rfl, List.append_nil, lastN_of_le h]
  | cons a rest ih =>
    intro st h
    rw [show runInput st (a :: rest) = runInput (inputStep st a) rest from rfl]
    cases hse : stepEvent st a with
    | none =>
      have hstep : inputStep st a = st := by
        unfold inputStep
        rw [hse]
      have h3 : retainedLog st (a :: rest)
          = retainedLog (inputStep st a) rest := by
        simp only [retainedLog, hse]
      rw [h3, hstep]
      exact ih st h
    | some e =>
      have hstep : inputStep st a
          = { st with events := dequeAppend st.events e } := by
        unfold inputStep
        rw [hse]
      have h3 : retainedLog st (a :: rest)
          = e :: retainedLog (inputStep st a) rest := by
        simp only [retainedLog, hse]
      have hlen' : (inputStep st a).events.length ≤ eventBufferMax := by
        rw [hstep]
        exact dequeAppend_length_le h e
      rw [h3, ih (inputStep st a) hlen']
      generalize retainedLog (inputStep st a) rest = L
      rw [hstep]
      show lastN eventBufferMax (dequeAppend st.events e ++ L)
        = lastN eventBufferMax (st.events ++ e :: L)
      rw [lastN_dequeAppend_append st.events e L h, List.append_assoc,
        List.singleton_append]

/-- An appended event is exactly the dict the callback builds. -/
theorem stepEvent_some {st : InputCaptureState} {a : InputAction}
    {e : PyEvent} (h : stepEvent st a = some e) : e = mkEvent st a := by
  cases a with
  | mouseMove t x y =>
    simp only [stepEvent] at h
    split at h
    · split at h
      · exact (Option.some.inj h).symm
      · exact Option.noConfusion h
    · exact Option.noConfusion h
  | keyPress t k =>
    simp only [stepEvent] at h
    split at h
    · exact (Option.some.inj h).symm
    · exact Option.noConfusion h
  | keyRelease t k =>
    simp only [stepEvent] at h
    split at h
    · exact (Option.some.inj h).symm
    · exact Option.noConfusion h
  | mouseClick t x y b p =>
    simp only [stepEvent] at h
    split at h
    · exact (Option.some.inj h).symm
    · exact Option.noConfusion h
  | mouseScroll t x y dx dy =>
    simp only [stepEvent] at h
    split at h
    · exact (Option.some.inj h).symm
    · exact Option.noConfusion h

/-- While recording, only pointer-move deliveries can be discarded. -/
theorem stepEvent_none_is_move {st : InputCaptureState} {a : InputAction}
    (hr : st.is_recording = true) (h : stepEvent st a = none) :
    nonMove (mkEvent st a) = false := by
  cases a with
  | mouseMove t x y => rfl
  | keyPress t k => simp [stepEvent, hr] at h
  | keyRelease t k => simp [stepEvent, hr] at h
  | mouseClick t x y b p => simp [stepEvent, hr] at h
  | mouseScroll t x y dx dy => simp [stepEvent, hr] at h

/-- `mkEvent` only reads the start time and latency offset. -/
theorem mkEvent_congr {st st' : InputCaptureState}
    (h1 : st'.start_time = st.start_time)
    (h2 : st'.latency_offset_ms = st.latency_offset_ms) (a : InputAction) :
    mkEvent st' a = mkEvent st a := by
  have hts : ∀ t, get_timestamp_ms st' t = get_timestamp_ms st t := by
    intro t
    unfold get_timestamp_ms
    rw [h1, h2]
  cases a <;> simp [mkEvent, hts]

/-- The retained log is an order-preserving selection of the delivered
events, and it keeps every non-move event. -/
theorem retainedLog_sublist_filter (acts : List InputAction) :
    ∀ st : InputCaptureState, st.is_recording = true →
      List.Sublist (retainedLog st acts) (acts.map (mkEvent st)) ∧
      (retainedLog st acts).filter nonMove
        = (acts.map (mkEvent st)).filter nonMove := by
  induction acts with
  | nil => exact fun st _ => ⟨List.Sublist.refl _, rfl⟩
  | cons a rest ih =>
    intro st hr
    have hr' : (inputStep st a).is_recording = true := by
      rw [inputStep_is_recording, hr]
    have hm : mkEvent (inputStep st a) = mkEvent st :=
      funext (mkEvent_congr (inputStep_start_time st a)
        (inputStep_latency st a))
    have hih := ih (inputStep st a) hr'
    rw [hm] at hih
    cases hse : stepEvent st a with
    | some e =>
      have he : e = mkEvent st a := stepEvent_some hse
      have h3 : retainedLog st (a :: rest)
          = e :: retainedLog (inputStep st a) rest := by
        simp only [retainedLog, hse]
      rw [h3, List.map_cons, he]
      constructor
      · exact List.Sublist.cons₂ _ hih.1
      · rw [List.filter_cons, List.filter_cons, hih.2]
    | none =>
      have h3 : retainedLog st (a :: rest)
          = retainedLog (inputStep st a) rest := by
        simp only [retainedLog, hse]
      rw [h3, List.map_cons]
      constructor
      · exact List.Sublist.cons _ hih.1
      · rw [List.filter_cons, stepEvent_none_is_move hr hse, hih.2]
        simp

end InputCapture

open InputCapture in
/-- C6: every captured event carries the timestamp
`int((now - session_start) * 1000 + latency_offset)`; with offset 0, for
an event at wall-clock time `now` inside the recording window
`[s, endT)` the timestamp is non-negative and strictly below the
recording's wall-clock duration in milliseconds; and the timestamp is
invariant under shifting both the session start and the event time by
any amount `c`, so it never depends on absolute wall-clock time. -/
theorem C6_timestamps_relative_and_bounded (off : Int) (s now endT : ℚ)
    (h1 : s ≤ now) (h2 : now < endT) :
    0 ≤ get_timestamp_ms (startedState s 0) now ∧
    ((get_timestamp_ms (startedState s 0) now : ℚ) < (endT - s) * 1000) ∧
    (∀ c : ℚ, get_timestamp_ms (startedState (s + c) off) (now + c)
      = get_timestamp_ms (startedState s off) now) ∧
    (∀ (st : InputCaptureState) (a : InputAction) (e : PyEvent),
      stepEvent st a = some e →
        e.timestamp_ms = get_timestamp_ms st a.time) := by
  have hval : ∀ (o : Int) (s' t : ℚ),
      get_timestamp_ms (startedState s' o) t
        = pyInt ((t - s') * 1000 + (o : ℚ)) := fun o s' t => rfl
  have hnn : (0 : ℚ) ≤ (now - s) * 1000 + ((0 : Int) : ℚ) := by
    have : (0 : ℚ) ≤ now - s := by linarith
    push_cast
    nlinarith
  refine ⟨?_, ?_, ?_, ?_⟩
  · rw [hval, pyInt_of_nonneg hnn]
    exact Int.floor_nonneg.mpr hnn
  · rw [hval, pyInt_of_nonneg hnn]
    have hle : ((⌊(now - s) * 1000 + ((0 : Int) : ℚ)⌋ : ℚ))
        ≤ (now - s) * 1000 + ((0 : Int) : ℚ) := Int.floor_le _
    have hlt : (now - s) * 1000 + ((0 : Int) : ℚ) < (endT - s) * 1000 := by
      push_cast
      nlinarith
    linarith
  · intro c
    rw [hval, hval]
    have harg : (now + c - (s + c)) = now - s := by ring
    rw [harg]
  · intro st a e he
    rw [stepEvent_some he]
    cases a <;> rfl

open InputCapture in
/-- Witness for C6: the theorem at offset 5, session start 10, an event
at 10.5, and a stop at 11. -/
theorem C6_timestamps_witness :
    (10 : ℚ) ≤ 21 / 2 ∧ (21 / 2 : ℚ) < 11 ∧
    (0 ≤ get_timestamp_ms (startedState 10 0) (21 / 2) ∧
     ((get_timestamp_ms (startedState 10 0) (21 / 2) : ℚ)
        < ((11 : ℚ) - 10) * 1000) ∧
     (∀ c : ℚ, get_timestamp_ms (startedState (10 + c) 5) (21 / 2 + c)
        = get_timestamp_ms (startedState 10 5) (21 / 2)) ∧
     (∀ (st : InputCaptureState) (a : InputAction) (e : PyEvent),
       stepEvent st a = some e →
         e.timestamp_ms = get_timestamp_ms st a.time)) :=
  ⟨by norm_num, by norm_num,
    C6_timestamps_relative_and_bounded 5 10 (21 / 2) 11 (by norm_num)
      (by norm_num)⟩

open InputCapture in
/-- C10: the in-memory buffer is a `deque(maxlen=10000)`: over any trace
of OS inputs after a successful start, the buffer never holds more than
10000 events — once more than 10000 events have been appended, the
oldest are silently discarded — and `stop_recording` returns exactly the
last 10000 (or fewer) of the events the callbacks appended, i.e. the
most recently captured ones. -/
theorem C10_buffer_keeps_last_10000 (s : ℚ) (off : Int)
    (acts : List InputAction) :
    eventBufferMax = 10000 ∧
    (stop_recording (runInput (startedState s off) acts)).1.length
      ≤ eventBufferMax ∧
    (stop_recording (runInput (startedState s off) acts)).1
      = lastN eventBufferMax (retainedLog (startedState s off) acts) := by
  have h0 : (startedState s off).events.length ≤ eventBufferMax := by
    show ([] : List PyEvent).length ≤ eventBufferMax
    norm_num [eventBufferMax]
  have hrec : (runInput (startedState s off) acts).is_recording = true := by
    rw [runInput_is_recording]
    rfl
  have hstop : (stop_recording (runInput (startedState s off) acts)).1
      = (runInput (startedState s off) acts).events := by
    unfold stop_recording
    rw [hrec]
    rfl
  have hev := runInput_events acts (startedState s off) h0
  refine ⟨rfl, ?_, ?_⟩
  · rw [hstop, hev]
    exact lastN_length_le _ _
  · rw [hstop, hev]
    rfl

open InputCapture in
set_option maxRecDepth 4000 in
/-- C7 counterexample: from a freshly started recorder, delivering 20
pointer-move events retains exactly 1 of them — not 2, as the code's
fixed factor of 10 would give for "one in every N" — because after the
first retained move the buffer length stays 1 and `len % 10 == 0` never
holds again; and after 9 key presses the same 20 move events are all
discarded (buffer length stays 9, all 9 key events retained).  Two
deliveries of the same 20 moves retain different counts, so there is no
fixed decimation factor independent of other state. -/
theorem C7_decimation_depends_on_buffer :
    moveCount (runInput (startedState 0 0)
      (List.replicate 20 (InputAction.mouseMove 0 0 0))).events = 1 ∧
    moveCount (runInput (startedState 0 0)
      (List.replicate 9 (InputAction.keyPress 0 "a")
        ++ List.replicate 20 (InputAction.mouseMove 0 0 0))).events = 0 ∧
    (runInput (startedState 0 0)
      (List.replicate 9 (InputAction.keyPress 0 "a")
        ++ List.replicate 20 (InputAction.mouseMove 0 0 0))).events.length
      = 9 := by
  refine ⟨?_, ?_, ?_⟩ <;> rfl

open InputCapture in
/-- C7 (amended): a pointer-move delivery is retained iff the current
buffer length — counting buffered events of every kind, as
`len(self.events) % 10 == 0` does — is divisible by 10, while click,
scroll, key-press and key-release deliveries are always retained.
Consequently, over any trace short enough that the deque evicts
nothing, the final buffer is an order-preserving selection of the
delivered events that keeps every non-move event and drops only
moves. -/
theorem C7_moves_decimated_by_buffer_length (s : ℚ) (off : Int)
    (acts : List InputAction) (h : acts.length ≤ eventBufferMax) :
    List.Sublist (runInput (startedState s off) acts).events
      (acts.map (mkEvent (startedState s off))) ∧
    ((runInput (startedState s off) acts).events.filter nonMove
      = (acts.map (mkEvent (startedState s off))).filter nonMove) ∧
    (∀ (st : InputCaptureState) (t x y : ℚ), st.is_recording = true →
      (st.events.length % 10 = 0 →
        inputStep st (InputAction.mouseMove t x y)
          = { st with
                events :=
                  dequeAppend st.events
                    (mkEvent st (InputAction.mouseMove t x y)) }) ∧
      (st.events.length % 10 ≠ 0 →
        inputStep st (InputAction.mouseMove t x y) = st)) ∧
    (∀ (st : InputCaptureState) (a : InputAction), st.is_recording = true →
      (∀ t x y : ℚ, a ≠ InputAction.mouseMove t x y) →
      inputStep st a
        = { st with events := dequeAppend st.events (mkEvent st a) }) := by
  have hrec : (startedState s off).is_recording = true := rfl
  have hlog := retainedLog_sublist_filter acts (startedState s off) hrec
  have hloglen : (retainedLog (startedState s off) acts).length
      ≤ eventBufferMax := by
    have hle := List.Sublist.length_le hlog.1
    rw [List.length_map] at hle
    omega
  have h0 : (startedState s off).events.length ≤ eventBufferMax := by
    show ([] : List PyEvent).length ≤ eventBufferMax
    norm_num [eventBufferMax]
  have hev : (runInput (startedState s off) acts).events
      = retainedLog (startedState s off) acts := by
    rw [runInput_events acts _ h0]
    show lastN eventBufferMax (retainedLog (startedState s off) acts) = _
    exact lastN_of_le hloglen
  refine ⟨?_, ?_, ?_, ?_⟩
  · rw [hev]
    exact hlog.1
  · rw [hev]
    exact hlog.2
  · intro st t x y hr
    constructor
    · intro hm
      have hse : stepEvent st (InputAction.mouseMove t x y)
          = some (mkEvent st (InputAction.mouseMove t x y)) := by
        simp [stepEvent, hr, hm]
      unfold inputStep
      rw [hse]
    · intro hm
      have hse : stepEvent st (InputAction.mouseMove t x y) = none := by
        simp [stepEvent, hr, hm]
      unfold inputStep
      rw [hse]
  · intro st a hr hne
    have hse : stepEvent st a = some (mkEvent st a) := by
      cases a with
      | mouseMove t x y => exact absurd rfl (hne t x y)
      | keyPress t k => simp [stepEvent, hr]
      | keyRelease t k => simp [stepEvent, hr]
      | mouseClick t x y b p => simp [stepEvent, hr]
      | mouseScroll t x y dx dy => simp [stepEvent, hr]
    unfold inputStep
    rw [hse]

open InputCapture in
/-- Witness for C7 (amended): the theorem at a concrete two-event trace
— a key press followed by a pointer move. -/
theorem C7_moves_decimated_witness :
    ([InputAction.keyPress 1 "w", InputAction.mouseMove 2 3 4]
      : List InputAction).length ≤ eventBufferMax ∧
    (List.Sublist (runInput (startedState 0 0)
        [InputAction.keyPress 1 "w", InputAction.mouseMove 2 3 4]).events
      ([InputAction.keyPress 1 "w", InputAction.mouseMove 2 3 4].map
        (mkEvent (startedState 0 0))) ∧
    ((runInput (startedState 0 0)
        [InputAction.keyPress 1 "w",
          InputAction.mouseMove 2 3 4]).events.filter nonMove
      = ([InputAction.keyPress 1 "w", InputAction.mouseMove 2 3 4].map
          (mkEvent (startedState 0 0))).filter nonMove) ∧
    (∀ (st : InputCaptureState) (t x y : ℚ), st.is_recording = true →
      (st.events.length % 10 = 0 →
        inputStep st (InputAction.mouseMove t x y)
          = { st with
                events :=
                  dequeAppend st.events
                    (mkEvent st (InputAction.mouseMove t x y)) }) ∧
      (st.events.length % 10 ≠ 0 →
        inputStep st (InputAction.mouseMove t x y) = st)) ∧
    (∀ (st : InputCaptureState) (a : InputAction), st.is_recording = true →
      (∀ t x y : ℚ, a ≠ InputAction.mouseMove t x y) →
      inputStep st a
        = { st with events := dequeAppend st.events (mkEvent st a) })) :=
  ⟨by norm_num [eventBufferMax],
    C7_moves_decimated_by_buffer_length 0 0
      [InputAction.keyPress 1 "w", InputAction.mouseMove 2 3 4]
      (by norm_num [eventBufferMax])⟩

end GameOn
